import Mathlib

/-!
Verification of the NIST SP 800-22 gRPC service layer
(`internal/service/service.go`, package `service`).

Scope of the embedding: the `RunTestSuite` RPC handler, its request
validation (`validateRequest`) and the p-value uniformity aggregate
(`calculatePValueUniformity`), translated statement by statement from the
Go source.  IEEE-754 `float64` values are modelled by exact rationals `ℚ`;
all comparisons and the claims at stake (sign tests, sentinel values,
ratio bounds) are insensitive to double rounding for the magnitudes
involved.  Wall-clock fields of the protobuf response (`timestamp`,
`execution_time_ms`) and the Prometheus metric side effects are outside
the model: no claim mentions them.

The `internal/nist` package (the fifteen test algorithms, `RunAllTests`,
and the `MinBits`/`MaxBits` constants) is not part of the excerpt; where a
claim depends on its behaviour, a definition explicitly marked
"Modelled from the spec:" stands in for it, and `RunTestSuite` is
parameterised over the runner exactly the way the Go source keeps
`runAllTests` as a package-level function variable.  Likewise gonum's
`mathext.GammaIncRegComp` (an external library) enters as a function
parameter `g`, constrained only by the mathematical property of the
regularized upper incomplete gamma function (values in `[0,1]` on its
domain).
-/

namespace NistService

/-- Go struct `nist.TestResult` (fields as used by the service layer:
`Name`, `PValue`, `Passed`, `Proportion`, `Warning`).  `float64` fields are
modelled by `ℚ`; the Go zero values are `0` and `""`. -/
structure TestResult where
  name : String
  pValue : ℚ
  passed : Bool
  proportion : ℚ
  warning : String
deriving Repr, DecidableEq

/-- Protobuf message `pb.Sp80022TestResult`: `Proportion` and `Warning`
are optional (Go pointer fields, `nil` when unset). -/
structure PbTestResult where
  name : String
  pValue : ℚ
  passed : Bool
  proportion : Option ℚ
  warning : Option String
deriving Repr, DecidableEq

/-- Protobuf message `pb.Sp80022TestRequest`: the bitstream is a byte
buffer, modelled as a list of bytes. -/
structure Sp80022TestRequest where
  bitstream : List ℕ
deriving Repr, DecidableEq

/-- Protobuf message `pb.Sp80022TestResponse` (the fields computed by
`RunTestSuite`; the wall-clock fields `timestamp` and `execution_time_ms`
are outside the model). -/
structure Sp80022TestResponse where
  sampleSizeBits : ℕ
  results : List PbTestResult
  overallPassRate : ℚ
  testsRun : ℕ
  testsSkipped : ℕ
  testsTotal : ℕ
  nistCompliant : Bool
  pValueUniformityChi2 : ℚ
deriving Repr, DecidableEq

/-- `const Alpha = 0.01` — NIST significance level (service.go). -/
def Alpha : ℚ := 1 / 100

/-- Modelled from the spec: `nist.MinBits` is declared in the
`internal/nist` package, which is not in the excerpt; the README
("Constraints: Minimum bits: 387,840, required for Universal Statistical
Test") and the spec fix its value. -/
def MinBits : ℕ := 387840

/-- Modelled from the spec: `nist.MaxBits` is declared in the
`internal/nist` package, which is not in the excerpt; the README
("Constraints: Maximum bits: 10,000,000, performance limit") and the spec
fix its value. -/
def MaxBits : ℕ := 10000000

/-- `validateRequest` (service.go): empty bitstream, fewer than `MinBits`
bits, or more than `MaxBits` bits are each rejected with an error;
`numBits = len(req.Bitstream) * 8`. -/
def validateRequest (req : Sp80022TestRequest) : Except String Unit :=
  if req.bitstream.length = 0 then
    .error "bitstream cannot be empty"
  else
    let numBits := req.bitstream.length * 8
    if numBits < MinBits then
      .error "insufficient bits"
    else if MaxBits < numBits then
      .error "too many bits"
    else
      .ok ()

/-- One iteration of the conversion loop in `RunTestSuite` (service.go):
a result with `PValue < 0` is emitted as skipped (`Passed: false`, no
proportion, warning copied when non-empty); a real result copies
`Passed`, sets `Proportion` only when strictly positive, and copies the
warning when non-empty. -/
def convertResult (r : TestResult) : PbTestResult :=
  if r.pValue < 0 then
    { name := r.name
      pValue := r.pValue
      passed := false
      proportion := none
      warning := if r.warning ≠ "" then some r.warning else none }
  else
    { name := r.name
      pValue := r.pValue
      passed := r.passed
      proportion := if 0 < r.proportion then some r.proportion else none
      warning := if r.warning ≠ "" then some r.warning else none }

/-- Accumulated state of the conversion loop in `RunTestSuite`:
the built `response.Results` slice, `passedCount`, `testsRun`, and the
`pValues` slice of real p-values collected for the uniformity check. -/
structure ConvState where
  pbResults : List PbTestResult
  passedCount : ℕ
  testsRun : ℕ
  pValues : List ℚ
deriving Repr, DecidableEq

/-- The conversion loop of `RunTestSuite` (service.go, `for i, result :=
range results`): skipped results (`PValue < 0`) only append a pb result;
real results additionally bump `testsRun`, bump `passedCount` when
`Passed`, and append the p-value to `pValues`. -/
def convertResults : List TestResult → ConvState
  | [] => ⟨[], 0, 0, []⟩
  | r :: rest =>
    let s := convertResults rest
    if r.pValue < 0 then
      ⟨convertResult r :: s.pbResults, s.passedCount, s.testsRun, s.pValues⟩
    else
      ⟨convertResult r :: s.pbResults,
       if r.passed then s.passedCount + 1 else s.passedCount,
       s.testsRun + 1,
       r.pValue :: s.pValues⟩

/-- `const numBins = 10` in `calculatePValueUniformity` (service.go). -/
def numBins : ℕ := 10

/-- The binning loop of `calculatePValueUniformity` (service.go): each
p-value outside `[0,1]` is skipped (`continue`); otherwise
`binIndex := int(pval * 10)` (truncation, equal to the floor for the
non-negative values that reach it) and `binIndex == 10` is clamped to `9`
(the `pval = 1.0` case).  The list collects, in order, every index at
which `bins[binIndex]++` executes. -/
def binIndices (pValues : List ℚ) : List ℤ :=
  pValues.filterMap (fun pval =>
    if pval < 0 ∨ 1 < pval then
      none
    else
      let binIndex : ℤ := ⌊pval * (numBins : ℚ)⌋
      some (if binIndex = (numBins : ℤ) then (numBins : ℤ) - 1 else binIndex))

/-- `bins[i]` after the binning loop: how often index `i` was incremented. -/
def binCount (pValues : List ℚ) (i : ℕ) : ℕ :=
  ((binIndices pValues).filter (fun b => b = (i : ℤ))).length

/-- The chi-squared accumulation of `calculatePValueUniformity`
(service.go): `expectedCount := len(pValues)/10`;
`chi2 += diff*diff/expectedCount` over the ten bins. -/
def chi2Stat (pValues : List ℚ) : ℚ :=
  let expectedCount : ℚ := (pValues.length : ℚ) / (numBins : ℚ)
  (((List.range numBins).map (fun i =>
    let diff : ℚ := (binCount pValues i : ℚ) - expectedCount
    diff * diff / expectedCount)).sum)

/-- `calculatePValueUniformity` (service.go), parameterised over gonum's
`mathext.GammaIncRegComp` as `g`: returns `0` on an empty slice, else
`g(df/2, chi2/2)` with `df = numBins - 1 = 9`. -/
def calculatePValueUniformity (g : ℚ → ℚ → ℚ) (pValues : List ℚ) : ℚ :=
  if pValues.length = 0 then 0
  else
    let df : ℚ := (numBins : ℚ) - 1
    g (df / 2) (chi2Stat pValues / 2)

/-- The response-assembly tail of `RunTestSuite` (service.go) after
`runAllTests` returned `results` without error: runs the conversion loop,
computes `OverallPassRate` (ratio, or `0.0` when `testsRun = 0`), the
transparency fields, `NistCompliant := testsRun == len(results)`, and
`PValueUniformityChi2` (`-1.0` when fewer than 5 real p-values were
collected). -/
def buildResponse (g : ℚ → ℚ → ℚ) (req : Sp80022TestRequest)
    (results : List TestResult) : Sp80022TestResponse :=
  let s := convertResults results
  { sampleSizeBits := req.bitstream.length * 8
    results := s.pbResults
    overallPassRate :=
      if 0 < s.testsRun then (s.passedCount : ℚ) / (s.testsRun : ℚ) else 0
    testsRun := s.testsRun
    testsSkipped := results.length - s.testsRun
    testsTotal := results.length
    nistCompliant := decide (s.testsRun = results.length)
    pValueUniformityChi2 :=
      if 5 ≤ s.pValues.length then calculatePValueUniformity g s.pValues
      else -1 }

/-- `RunTestSuite` (service.go): validation errors are returned as-is and
nothing else runs; an error from `runAllTests` is wrapped
(`"test execution failed: ..."`) and returned; otherwise the response is
assembled from the results.  `runAllTests` is a parameter, matching the
Go package-level function variable `var runAllTests = nist.RunAllTests`;
`g` stands for `mathext.GammaIncRegComp`. -/
def RunTestSuite (runAllTests : List ℕ → Except String (List TestResult))
    (g : ℚ → ℚ → ℚ) (req : Sp80022TestRequest) :
    Except String Sp80022TestResponse :=
  match validateRequest req with
  | .error e => .error e
  | .ok _ =>
    match runAllTests req.bitstream with
    | .error e => .error ("test execution failed: " ++ e)
    | .ok results => .ok (buildResponse g req results)

/-- Modelled from the spec: `nist.RunAllTests` (package `internal/nist`,
not in the excerpt).  Per spec §4.12/§7, it dispatches a fixed list of
per-test algorithms and "any single test algorithm failing internally …
is caught and converted into a skipped TestResult with a warning — a
defect in one test must never abort the suite"; it therefore never
returns a suite-level error. -/
def specRunAllTests
    (algorithms : List (String × (List ℕ → Except String TestResult)))
    (bitstream : List ℕ) : List TestResult :=
  algorithms.map (fun a =>
    match a.2 bitstream with
    | .ok r => r
    | .error e =>
      { name := a.1
        pValue := -1
        passed := false
        proportion := 0
        warning := "test failed: " ++ e })

/-- The number of response entries that ran and passed
(`p_value ≥ 0` and `passed`), the spec's "number of passed tests". -/
def passedCountOf (resp : Sp80022TestResponse) : ℕ :=
  (resp.results.filter (fun pr => decide (0 ≤ pr.pValue) && pr.passed)).length

/-! ## Concrete fixtures used by the witnesses -/

/-- A request of exactly `MinBits / 8 = 48480` bytes (the minimum valid
length), as in the repository's own service tests. -/
def sampleRequest : Sp80022TestRequest := ⟨List.replicate 48480 0⟩

/-- A two-algorithm fixture: one healthy algorithm and one that fails
internally with a domain error. -/
def sampleAlgorithms : List (String × (List ℕ → Except String TestResult)) :=
  [("frequency", fun _ => .ok ⟨"frequency", 1/2, true, 1, ""⟩),
   ("universal", fun _ => .error "gamma domain error")]

/-- A fixed list of fifteen nist-side results, one per NIST SP 800-22
test, mixing passing, failing and skipped outcomes. -/
def sampleResults : List TestResult :=
  [⟨"frequency", 1/2, true, 0, ""⟩,
   ⟨"block_frequency", 3/10, true, 0, ""⟩,
   ⟨"cumulative_sums", 7/10, true, 0, ""⟩,
   ⟨"runs", 1/250, false, 0, ""⟩,
   ⟨"longest_run", 2/5, true, 0, ""⟩,
   ⟨"rank", 3/5, true, 0, ""⟩,
   ⟨"dft", 9/10, true, 0, ""⟩,
   ⟨"non_overlapping_template", 1/5, true, 99/100, ""⟩,
   ⟨"overlapping_template", 4/5, true, 0, ""⟩,
   ⟨"universal", 1/10, true, 0, ""⟩,
   ⟨"approximate_entropy", 11/20, true, 0, ""⟩,
   ⟨"random_excursions", -1, false, 0, "insufficient cycles"⟩,
   ⟨"random_excursions_variant", -1, false, 0, "insufficient cycles"⟩,
   ⟨"serial", 13/20, true, 0, ""⟩,
   ⟨"linear_complexity", 17/20, true, 1, ""⟩]

/-- A stand-in for `mathext.GammaIncRegComp` in the witnesses: the
constant `1/2`, which satisfies the incomplete-gamma range property. -/
def sampleGamma : ℚ → ℚ → ℚ := fun _ _ => 1/2

/-! ## Structural lemmas about the conversion loop -/

theorem convertResults_pbResults (l : List TestResult) :
    (convertResults l).pbResults = l.map convertResult := by
  induction l with
  | nil => rfl
  | cons r rest ih =>
    by_cases h : r.pValue < 0 <;> simp [convertResults, h, ih]

theorem convertResults_testsRun (l : List TestResult) :
    (convertResults l).testsRun = (l.filter (fun r => decide (0 ≤ r.pValue))).length := by
  induction l with
  | nil => rfl
  | cons r rest ih =>
    by_cases h : r.pValue < 0
    · simp [convertResults, h, ih, not_le.mpr h]
    · simp [convertResults, h, ih, not_lt.mp h]

theorem convertResults_passedCount_le (l : List TestResult) :
    (convertResults l).passedCount ≤ (convertResults l).testsRun := by
  induction l with
  | nil => exact Nat.le_refl 0
  | cons r rest ih =>
    by_cases h : r.pValue < 0
    · simpa [convertResults, h] using ih
    · by_cases hp : r.passed <;> simp [convertResults, h, hp] <;> omega

theorem convertResults_pValues_length (l : List TestResult) :
    (convertResults l).pValues.length = (convertResults l).testsRun := by
  induction l with
  | nil => rfl
  | cons r rest ih =>
    by_cases h : r.pValue < 0 <;> simp [convertResults, h, ih]

theorem convertResults_passedCount (l : List TestResult) :
    (convertResults l).passedCount =
      ((l.map convertResult).filter
        (fun pr => decide (0 ≤ pr.pValue) && pr.passed)).length := by
  induction l with
  | nil => rfl
  | cons r rest ih =>
    by_cases h : r.pValue < 0
    · simp [convertResults, h, ih, convertResult, not_le.mpr h]
    · by_cases hp : r.passed <;>
        simp [convertResults, h, ih, convertResult, hp, not_lt.mp h]

/-- Inversion: `RunTestSuite` succeeds exactly when validation succeeds
and the runner succeeds, and then the response is `buildResponse`. -/
theorem runTestSuite_ok_iff
    (runAllTests : List ℕ → Except String (List TestResult))
    (g : ℚ → ℚ → ℚ) (req : Sp80022TestRequest) (resp : Sp80022TestResponse) :
    RunTestSuite runAllTests g req = .ok resp ↔
      validateRequest req = .ok () ∧
      ∃ results, runAllTests req.bitstream = .ok results ∧
        resp = buildResponse g req results := by
  unfold RunTestSuite
  cases hv : validateRequest req with
  | error e => simp
  | ok u =>
    cases u
    cases hr : runAllTests req.bitstream with
    | error e => simp
    | ok results => simp [eq_comm]

/-! ## Claims -/

/-- Claim C2: for every request whose bitstream is empty, or whose bit
count (8 × byte length) is below `MinBits` or above `MaxBits`,
`RunTestSuite` returns a validation error and no `SuiteResult`; this
holds for every runner (so no test is run and no partial result is ever
surfaced). -/
theorem runTestSuite_rejects_invalid_length
    (runAllTests : List ℕ → Except String (List TestResult))
    (g : ℚ → ℚ → ℚ) (req : Sp80022TestRequest)
    (hbad : req.bitstream.length = 0 ∨ req.bitstream.length * 8 < MinBits ∨
      MaxBits < req.bitstream.length * 8) :
    ∃ e, RunTestSuite runAllTests g req = .error e := by
  by_cases h0 : req.bitstream.length = 0
  · exact ⟨"bitstream cannot be empty",
      by unfold RunTestSuite validateRequest; simp [h0]⟩
  · rcases hbad with h | h | h
    · exact absurd h h0
    · exact ⟨"insufficient bits",
        by unfold RunTestSuite validateRequest; simp [h0, h]⟩
    · have h2 : ¬ req.bitstream.length * 8 < MinBits := by
        simp only [MinBits, MaxBits] at h ⊢; omega
      exact ⟨"too many bits",
        by unfold RunTestSuite validateRequest; simp [h0, h2, h]⟩

/-- Witness for C2 at the concrete empty request. -/
theorem runTestSuite_rejects_invalid_length_witness :
    (([] : List ℕ).length = 0 ∨ ([] : List ℕ).length * 8 < MinBits ∨
      MaxBits < ([] : List ℕ).length * 8) ∧
    ∃ e, RunTestSuite (fun _ => .ok []) (fun _ _ => 0) ⟨[]⟩ = .error e :=
  ⟨Or.inl rfl,
   runTestSuite_rejects_invalid_length (fun _ => .ok []) (fun _ _ => 0) ⟨[]⟩
     (Or.inl rfl)⟩

/-- Claim C3: in every returned response, a result with negative
`p_value` has `passed = false` and a non-empty warning.  The hypothesis
`hw` is the nist-side invariant (modelled from the spec: a skipped
`nist.TestResult`, `p_value = −1`, always carries a populated warning;
the `internal/nist` package is not in the excerpt). -/
theorem runTestSuite_negative_pvalue_skipped
    (results : List TestResult) (g : ℚ → ℚ → ℚ)
    (req : Sp80022TestRequest) (resp : Sp80022TestResponse)
    (hw : ∀ r ∈ results, r.pValue < 0 → r.warning ≠ "")
    (hok : RunTestSuite (fun _ => .ok results) g req = .ok resp) :
    ∀ pr ∈ resp.results, pr.pValue < 0 → pr.passed = false ∧ pr.warning ≠ none := by
  obtain ⟨-, results2, hr, rfl⟩ := (runTestSuite_ok_iff _ _ _ _).mp hok
  obtain rfl : results = results2 := by
    simpa using hr
  intro pr hpr hneg
  rw [show (buildResponse g req results).results =
        (convertResults results).pbResults from rfl,
    convertResults_pbResults] at hpr
  obtain ⟨r, hrmem, rfl⟩ := List.mem_map.mp hpr
  by_cases h : r.pValue < 0
  · refine ⟨by simp [convertResult, h], ?_⟩
    have hwne := hw r hrmem h
    simp [convertResult, h, hwne]
  · simp only [convertResult, if_neg h] at hneg
    exact absurd hneg h

/-- Claim C4: in every returned response, a result with `p_value ≥ 0` has
`passed = true` iff `p_value ≥ Alpha` (0.01).  The hypothesis `hp` is the
nist-side invariant (modelled from the spec: `passed` is derived strictly
from `p_value >= alpha`; the `internal/nist` package is not in the
excerpt); the service layer preserves it. -/
theorem runTestSuite_passed_iff_alpha
    (results : List TestResult) (g : ℚ → ℚ → ℚ)
    (req : Sp80022TestRequest) (resp : Sp80022TestResponse)
    (hp : ∀ r ∈ results, 0 ≤ r.pValue → (r.passed = true ↔ Alpha ≤ r.pValue))
    (hok : RunTestSuite (fun _ => .ok results) g req = .ok resp) :
    ∀ pr ∈ resp.results, 0 ≤ pr.pValue → (pr.passed = true ↔ Alpha ≤ pr.pValue) := by
  obtain ⟨-, results2, hr, rfl⟩ := (runTestSuite_ok_iff _ _ _ _).mp hok
  obtain rfl : results = results2 := by
    simpa using hr
  intro pr hpr hpos
  rw [show (buildResponse g req results).results =
        (convertResults results).pbResults from rfl,
    convertResults_pbResults] at hpr
  obtain ⟨r, hrmem, rfl⟩ := List.mem_map.mp hpr
  by_cases h : r.pValue < 0
  · exact absurd (by simpa [convertResult, h] using hpos) (not_le.mpr h)
  · have := hp r hrmem (not_lt.mp h)
    simpa [convertResult, h] using this

/-- Claim C5: `overall_pass_rate` equals passed-count / `tests_run` when
`tests_run > 0`, equals `0` when `tests_run = 0`, and always lies in
`[0,1]`. -/
theorem runTestSuite_overall_pass_rate
    (runAllTests : List ℕ → Except String (List TestResult))
    (g : ℚ → ℚ → ℚ) (req : Sp80022TestRequest) (resp : Sp80022TestResponse)
    (hok : RunTestSuite runAllTests g req = .ok resp) :
    (0 < resp.testsRun →
      resp.overallPassRate = (passedCountOf resp : ℚ) / (resp.testsRun : ℚ)) ∧
    (resp.testsRun = 0 → resp.overallPassRate = 0) ∧
    0 ≤ resp.overallPassRate ∧ resp.overallPassRate ≤ 1 := by
  obtain ⟨-, results, -, rfl⟩ := (runTestSuite_ok_iff _ _ _ _).mp hok
  have hpc : passedCountOf (buildResponse g req results) =
      (convertResults results).passedCount := by
    simp only [passedCountOf, buildResponse, convertResults_pbResults]
    exact (convertResults_passedCount results).symm
  have hle : ((convertResults results).passedCount : ℚ) ≤
      ((convertResults results).testsRun : ℚ) :=
    Nat.cast_le.mpr (convertResults_passedCount_le results)
  refine ⟨?_, ?_, ?_, ?_⟩
  · intro hpos
    rw [hpc]
    simp only [buildResponse] at hpos ⊢
    rw [if_pos hpos]
  · intro h0
    simp only [buildResponse] at h0 ⊢
    rw [if_neg (by omega)]
  · simp only [buildResponse]
    split
    · positivity
    · exact le_refl 0
  · simp only [buildResponse]
    split
    · rename_i hpos
      rw [div_le_one (by exact_mod_cast hpos)]
      exact hle
    · exact zero_le_one

/-- The chi-squared statistic of the uniformity check is a sum of
squares over a non-negative expected count, hence non-negative. -/
theorem chi2Stat_nonneg (pValues : List ℚ) : 0 ≤ chi2Stat pValues := by
  unfold chi2Stat
  apply List.sum_nonneg
  intro x hx
  simp only [List.mem_map] at hx
  obtain ⟨i, -, rfl⟩ := hx
  exact div_nonneg (mul_self_nonneg _) (by positivity)

/-- Claim C6: `p_value_uniformity_chi2` is the sentinel `−1` when fewer
than 5 tests produced a real (non-negative) p-value; otherwise it is the
chi-squared goodness-of-fit meta p-value over the collected per-test
p-values and lies in `[0,1]`.  The hypothesis `hg` is the mathematical
property of gonum's `mathext.GammaIncRegComp` (regularized upper
incomplete gamma: values in `[0,1]` for shape `9/2` and non-negative
argument); the gonum library is external to the repository. -/
theorem runTestSuite_uniformity_chi2
    (results : List TestResult) (g : ℚ → ℚ → ℚ)
    (req : Sp80022TestRequest) (resp : Sp80022TestResponse)
    (hg : ∀ x : ℚ, 0 ≤ x → 0 ≤ g (9 / 2) x ∧ g (9 / 2) x ≤ 1)
    (hok : RunTestSuite (fun _ => .ok results) g req = .ok resp) :
    (resp.testsRun < 5 → resp.pValueUniformityChi2 = -1) ∧
    (5 ≤ resp.testsRun →
      resp.pValueUniformityChi2 =
        calculatePValueUniformity g (convertResults results).pValues ∧
      0 ≤ resp.pValueUniformityChi2 ∧ resp.pValueUniformityChi2 ≤ 1) := by
  obtain ⟨-, results2, hr, rfl⟩ := (runTestSuite_ok_iff _ _ _ _).mp hok
  obtain rfl : results = results2 := by
    simpa using hr
  have hlen := convertResults_pValues_length results
  constructor
  · intro hlt
    simp only [buildResponse] at hlt ⊢
    rw [if_neg (by omega)]
  · intro hge
    simp only [buildResponse] at hge ⊢
    rw [if_pos (by omega)]
    refine ⟨rfl, ?_⟩
    have hne : ¬ (convertResults results).pValues.length = 0 := by omega
    have hcal : calculatePValueUniformity g (convertResults results).pValues =
        g (9 / 2) (chi2Stat (convertResults results).pValues / 2) := by
      unfold calculatePValueUniformity
      rw [if_neg hne]
      norm_num [numBins]
    rw [hcal]
    exact hg _ (by have := chi2Stat_nonneg (convertResults results).pValues; linarith)

/-- Claim C8: `nist_compliant` is true exactly when `tests_run` equals
`tests_total`. -/
theorem runTestSuite_nist_compliant_iff
    (runAllTests : List ℕ → Except String (List TestResult))
    (g : ℚ → ℚ → ℚ) (req : Sp80022TestRequest) (resp : Sp80022TestResponse)
    (hok : RunTestSuite runAllTests g req = .ok resp) :
    resp.nistCompliant = true ↔ resp.testsRun = resp.testsTotal := by
  obtain ⟨-, results, -, rfl⟩ := (runTestSuite_ok_iff _ _ _ _).mp hok
  simp [buildResponse]

/-- Claim C1: on valid-length input, running the suite over the
spec-modelled `nist.RunAllTests` (which catches per-test failures) always
yields a complete response — never a suite-level error — and every
algorithm that failed internally appears in it as a skipped result
(negative p-value, `passed = false`, populated warning), at its own
position.  Only suite-level precondition violations (`validateRequest`)
can make `RunTestSuite` return an error. -/
theorem runTestSuite_recovers_per_test_failure
    (algorithms : List (String × (List ℕ → Except String TestResult)))
    (g : ℚ → ℚ → ℚ) (req : Sp80022TestRequest)
    (hval : validateRequest req = .ok ()) :
    ∃ resp,
      RunTestSuite (fun b => .ok (specRunAllTests algorithms b)) g req = .ok resp ∧
      resp.results.length = algorithms.length ∧
      ∀ (i : ℕ) (h : i < algorithms.length) (h2 : i < resp.results.length)
        (e : String),
        (algorithms[i]).2 req.bitstream = .error e →
        resp.results[i].pValue < 0 ∧
        resp.results[i].passed = false ∧
        resp.results[i].warning ≠ none := by
  refine ⟨buildResponse g req (specRunAllTests algorithms req.bitstream),
    ?_, ?_, ?_⟩
  · unfold RunTestSuite
    rw [hval]
  · show (convertResults _).pbResults.length = _
    rw [convertResults_pbResults]
    simp [specRunAllTests]
  · intro i h h2 e herr
    have hres : (buildResponse g req
          (specRunAllTests algorithms req.bitstream)).results =
        (specRunAllTests algorithms req.bitstream).map convertResult := by
      show (convertResults _).pbResults = _
      exact convertResults_pbResults _
    have hlen : i < (specRunAllTests algorithms req.bitstream).length := by
      simpa [specRunAllTests] using h
    have hskip : (specRunAllTests algorithms req.bitstream)[i] =
        { name := (algorithms[i]).1
          pValue := -1
          passed := false
          proportion := 0
          warning := "test failed: " ++ e } := by
      simp [specRunAllTests, herr]
    have hwne : ("test failed: " ++ e) ≠ "" := by
      intro hc
      have := congrArg String.length hc
      simp [String.length_append] at this
      have h13 : "test failed: ".length = 13 := rfl
      omega
    simp only [hres, List.getElem_map, hskip]
    refine ⟨by norm_num [convertResult], ?_, ?_⟩
    · simp [convertResult]
    · simp [convertResult, hwne]

/-- Witness for C1: one healthy algorithm and one failing algorithm, on a
minimum-length request. -/
theorem runTestSuite_recovers_per_test_failure_witness :
    validateRequest sampleRequest = .ok () ∧
    ∃ resp,
      RunTestSuite (fun b => .ok (specRunAllTests sampleAlgorithms b))
        sampleGamma sampleRequest = .ok resp ∧
      resp.results.length = sampleAlgorithms.length ∧
      ∀ (i : ℕ) (h : i < sampleAlgorithms.length)
        (h2 : i < resp.results.length) (e : String),
        (sampleAlgorithms[i]).2 sampleRequest.bitstream = .error e →
        resp.results[i].pValue < 0 ∧
        resp.results[i].passed = false ∧
        resp.results[i].warning ≠ none := by
  have hlen : sampleRequest.bitstream.length = 48480 := by
    simp only [sampleRequest, List.length_replicate]
  have hval : validateRequest sampleRequest = .ok () := by
    unfold validateRequest
    rw [hlen]
    norm_num [MinBits, MaxBits]
  exact ⟨hval,
    runTestSuite_recovers_per_test_failure sampleAlgorithms sampleGamma
      sampleRequest hval⟩

/-- Claim C7: for a fixed nist result list of length 15 (modelled from
the spec: `nist.RunAllTests` is a pure function returning fifteen results
in a fixed order; the `internal/nist` package is not in the excerpt) and
a valid request, `RunTestSuite` returns exactly 15 entries, equal to the
per-index conversion of the nist results (same names, p-values and pass
flags, in the same order), and the response is uniquely determined — two
runs on the same input return the same results. -/
theorem runTestSuite_deterministic_fifteen
    (results : List TestResult) (g : ℚ → ℚ → ℚ) (req : Sp80022TestRequest)
    (h15 : results.length = 15) (hval : validateRequest req = .ok ()) :
    ∃ resp,
      RunTestSuite (fun _ => .ok results) g req = .ok resp ∧
      resp.results.length = 15 ∧
      resp.results = results.map convertResult ∧
      ∀ resp2, RunTestSuite (fun _ => .ok results) g req = .ok resp2 →
        resp2 = resp := by
  have hrun : RunTestSuite (fun _ => .ok results) g req =
      .ok (buildResponse g req results) := by
    unfold RunTestSuite
    rw [hval]
  have hres : (buildResponse g req results).results =
      results.map convertResult := by
    show (convertResults _).pbResults = _
    exact convertResults_pbResults _
  refine ⟨buildResponse g req results, hrun, ?_, hres, ?_⟩
  · rw [hres, List.length_map, h15]
  · intro resp2 h2
    rw [hrun] at h2
    exact (Except.ok.inj h2).symm

/-- Claim C9: a response entry's optional `proportion` field is `some`
exactly when the test ran (`p_value ≥ 0`) and its computed proportion is
strictly positive; a test that ran with proportion `0` (and any skipped
test) has the field omitted. -/
theorem runTestSuite_proportion_field
    (results : List TestResult) (g : ℚ → ℚ → ℚ)
    (req : Sp80022TestRequest) (resp : Sp80022TestResponse)
    (hok : RunTestSuite (fun _ => .ok results) g req = .ok resp)
    (i : ℕ) (h : i < results.length) (h2 : i < resp.results.length) :
    resp.results[i].proportion =
      if 0 ≤ results[i].pValue ∧ 0 < results[i].proportion
      then some (results[i].proportion) else none := by
  obtain ⟨-, results2, hr, rfl⟩ := (runTestSuite_ok_iff _ _ _ _).mp hok
  obtain rfl : results = results2 := by
    simpa using hr
  have hres : (buildResponse g req results).results =
      results.map convertResult := by
    show (convertResults _).pbResults = _
    exact convertResults_pbResults _
  simp only [hres, List.getElem_map]
  by_cases hneg : results[i].pValue < 0
  · rw [if_neg (by rw [not_and_or, not_le]; exact Or.inl hneg)]
    simp [convertResult, hneg]
  · by_cases hprop : 0 < results[i].proportion
    · rw [if_pos ⟨not_lt.mp hneg, hprop⟩]
      simp [convertResult, hneg, hprop]
    · rw [if_neg (by intro hc; exact hprop hc.2)]
      simp [convertResult, hneg, hprop]

/-- Claim C10: every bin index used by the binning loop of
`calculatePValueUniformity` lies in `[0, 9]`: p-values outside `[0,1]`
are skipped without binning, and a p-value of exactly `1` lands in the
last bin (index 9), so `bins[binIndex]++` never accesses out of bounds. -/
theorem binIndices_in_range (pValues : List ℚ) :
    (∀ b ∈ binIndices pValues, 0 ≤ b ∧ b ≤ 9) ∧
    binIndices ((1 : ℚ) :: pValues) = 9 :: binIndices pValues := by
  constructor
  · intro b hb
    simp only [binIndices, List.mem_filterMap] at hb
    obtain ⟨pval, -, hval⟩ := hb
    by_cases hskip : pval < 0 ∨ 1 < pval
    · simp [hskip] at hval
    · rw [if_neg hskip] at hval
      push_neg at hskip
      obtain ⟨h0, h1⟩ := hskip
      obtain rfl := Option.some.inj hval
      simp only [show ((numBins : ℕ) : ℚ) = 10 from by norm_num [numBins],
        show ((numBins : ℕ) : ℤ) = 10 from by norm_num [numBins]]
      have hf0 : 0 ≤ ⌊pval * (10:ℚ)⌋ := by
        apply Int.floor_nonneg.mpr
        positivity
      have hf10 : ⌊pval * (10:ℚ)⌋ ≤ 10 := by
        have hle : pval * (10:ℚ) ≤ 10 := by nlinarith
        calc ⌊pval * (10:ℚ)⌋ ≤ ⌊(10:ℚ)⌋ := Int.floor_le_floor hle
        _ = 10 := by norm_num
      by_cases h10 : ⌊pval * (10:ℚ)⌋ = 10
      · rw [if_pos h10]
        norm_num
      · rw [if_neg h10]
        exact ⟨hf0, by omega⟩
  · have h1 : ((1:ℚ) < 0 ∨ (1:ℚ) < 1) = False := by norm_num
    simp only [binIndices, List.filterMap_cons]
    rw [if_neg (by norm_num)]
    have hfloor : ⌊(1:ℚ) * (numBins : ℚ)⌋ = (numBins : ℤ) := by
      norm_num [numBins]
    rw [hfloor, if_pos rfl]
    norm_num [numBins, binIndices]


/-! ## Shared facts about the witness fixtures -/

theorem sampleRequest_valid : validateRequest sampleRequest = .ok () := by
  have hlen : sampleRequest.bitstream.length = 48480 := by
    simp only [sampleRequest, List.length_replicate]
  unfold validateRequest
  rw [hlen]
  norm_num [MinBits, MaxBits]

theorem sampleRun_ok :
    RunTestSuite (fun _ => .ok sampleResults) sampleGamma sampleRequest =
      .ok (buildResponse sampleGamma sampleRequest sampleResults) :=
  (runTestSuite_ok_iff (fun _ => .ok sampleResults) sampleGamma sampleRequest
    (buildResponse sampleGamma sampleRequest sampleResults)).mpr
    ⟨sampleRequest_valid, sampleResults, rfl, rfl⟩

theorem sampleResults_warning_inv :
    ∀ r ∈ sampleResults, r.pValue < 0 → r.warning ≠ "" := by
  intro r hr
  simp only [sampleResults] at hr
  fin_cases hr <;> norm_num <;> decide

theorem sampleResults_alpha_inv :
    ∀ r ∈ sampleResults, 0 ≤ r.pValue → (r.passed = true ↔ Alpha ≤ r.pValue) := by
  intro r hr
  simp only [sampleResults] at hr
  fin_cases hr <;> norm_num [Alpha]

theorem sampleResponse_length :
    (buildResponse sampleGamma sampleRequest sampleResults).results.length =
      15 := by
  show (convertResults sampleResults).pbResults.length = 15
  rw [convertResults_pbResults]
  simp [sampleResults]

/-- Witness for C3 on the fifteen-result fixture. -/
theorem runTestSuite_negative_pvalue_skipped_witness :
    (∀ r ∈ sampleResults, r.pValue < 0 → r.warning ≠ "") ∧
    RunTestSuite (fun _ => .ok sampleResults) sampleGamma sampleRequest =
      .ok (buildResponse sampleGamma sampleRequest sampleResults) ∧
    (∀ pr ∈ (buildResponse sampleGamma sampleRequest sampleResults).results,
      pr.pValue < 0 → pr.passed = false ∧ pr.warning ≠ none) :=
  ⟨sampleResults_warning_inv, sampleRun_ok,
   runTestSuite_negative_pvalue_skipped sampleResults sampleGamma
     sampleRequest (buildResponse sampleGamma sampleRequest sampleResults)
     sampleResults_warning_inv sampleRun_ok⟩

/-- Witness for C4 on the fifteen-result fixture. -/
theorem runTestSuite_passed_iff_alpha_witness :
    (∀ r ∈ sampleResults, 0 ≤ r.pValue →
      (r.passed = true ↔ Alpha ≤ r.pValue)) ∧
    RunTestSuite (fun _ => .ok sampleResults) sampleGamma sampleRequest =
      .ok (buildResponse sampleGamma sampleRequest sampleResults) ∧
    (∀ pr ∈ (buildResponse sampleGamma sampleRequest sampleResults).results,
      0 ≤ pr.pValue → (pr.passed = true ↔ Alpha ≤ pr.pValue)) :=
  ⟨sampleResults_alpha_inv, sampleRun_ok,
   runTestSuite_passed_iff_alpha sampleResults sampleGamma sampleRequest
     (buildResponse sampleGamma sampleRequest sampleResults)
     sampleResults_alpha_inv sampleRun_ok⟩

/-- Witness for C5 on the fifteen-result fixture. -/
theorem runTestSuite_overall_pass_rate_witness :
    RunTestSuite (fun _ => .ok sampleResults) sampleGamma sampleRequest =
      .ok (buildResponse sampleGamma sampleRequest sampleResults) ∧
    (0 < (buildResponse sampleGamma sampleRequest sampleResults).testsRun →
      (buildResponse sampleGamma sampleRequest sampleResults).overallPassRate =
        ((passedCountOf
            (buildResponse sampleGamma sampleRequest sampleResults) : ℚ)) /
          (((buildResponse sampleGamma sampleRequest
              sampleResults).testsRun : ℚ))) ∧
    ((buildResponse sampleGamma sampleRequest sampleResults).testsRun = 0 →
      (buildResponse sampleGamma sampleRequest sampleResults).overallPassRate =
        0) ∧
    0 ≤ (buildResponse sampleGamma sampleRequest sampleResults).overallPassRate ∧
    (buildResponse sampleGamma sampleRequest sampleResults).overallPassRate ≤ 1 :=
  ⟨sampleRun_ok,
   runTestSuite_overall_pass_rate (fun _ => .ok sampleResults) sampleGamma
     sampleRequest (buildResponse sampleGamma sampleRequest sampleResults)
     sampleRun_ok⟩

/-- Witness for C6 on the fifteen-result fixture (13 real p-values). -/
theorem runTestSuite_uniformity_chi2_witness :
    (∀ x : ℚ, 0 ≤ x → 0 ≤ sampleGamma (9 / 2) x ∧ sampleGamma (9 / 2) x ≤ 1) ∧
    RunTestSuite (fun _ => .ok sampleResults) sampleGamma sampleRequest =
      .ok (buildResponse sampleGamma sampleRequest sampleResults) ∧
    (((buildResponse sampleGamma sampleRequest sampleResults).testsRun < 5 →
      (buildResponse sampleGamma sampleRequest
        sampleResults).pValueUniformityChi2 = -1) ∧
    (5 ≤ (buildResponse sampleGamma sampleRequest sampleResults).testsRun →
      (buildResponse sampleGamma sampleRequest
          sampleResults).pValueUniformityChi2 =
        calculatePValueUniformity sampleGamma
          (convertResults sampleResults).pValues ∧
      0 ≤ (buildResponse sampleGamma sampleRequest
          sampleResults).pValueUniformityChi2 ∧
      (buildResponse sampleGamma sampleRequest
          sampleResults).pValueUniformityChi2 ≤ 1)) :=
  ⟨fun x hx => by norm_num [sampleGamma], sampleRun_ok,
   runTestSuite_uniformity_chi2 sampleResults sampleGamma sampleRequest
     (buildResponse sampleGamma sampleRequest sampleResults)
     (fun x hx => by norm_num [sampleGamma]) sampleRun_ok⟩

/-- Witness for C7 on the fifteen-result fixture. -/
theorem runTestSuite_deterministic_fifteen_witness :
    sampleResults.length = 15 ∧
    validateRequest sampleRequest = .ok () ∧
    ∃ resp,
      RunTestSuite (fun _ => .ok sampleResults) sampleGamma sampleRequest =
        .ok resp ∧
      resp.results.length = 15 ∧
      resp.results = sampleResults.map convertResult ∧
      ∀ resp2,
        RunTestSuite (fun _ => .ok sampleResults) sampleGamma sampleRequest =
          .ok resp2 → resp2 = resp :=
  ⟨by simp [sampleResults], sampleRequest_valid,
   runTestSuite_deterministic_fifteen sampleResults sampleGamma sampleRequest
     (by simp [sampleResults]) sampleRequest_valid⟩

/-- Witness for C8 on the fifteen-result fixture. -/
theorem runTestSuite_nist_compliant_iff_witness :
    RunTestSuite (fun _ => .ok sampleResults) sampleGamma sampleRequest =
      .ok (buildResponse sampleGamma sampleRequest sampleResults) ∧
    ((buildResponse sampleGamma sampleRequest sampleResults).nistCompliant =
        true ↔
      (buildResponse sampleGamma sampleRequest sampleResults).testsRun =
        (buildResponse sampleGamma sampleRequest sampleResults).testsTotal) :=
  ⟨sampleRun_ok,
   runTestSuite_nist_compliant_iff (fun _ => .ok sampleResults) sampleGamma
     sampleRequest (buildResponse sampleGamma sampleRequest sampleResults)
     sampleRun_ok⟩

/-- Witness for C9 at index 14 of the fixture (`linear_complexity`, which
ran with proportion 1). -/
theorem runTestSuite_proportion_field_witness :
    ((buildResponse sampleGamma sampleRequest
        sampleResults).results.get
          ⟨14, by rw [sampleResponse_length]; norm_num⟩).proportion =
      if 0 ≤ (sampleResults.get ⟨14, by simp [sampleResults]⟩).pValue ∧
          0 < (sampleResults.get ⟨14, by simp [sampleResults]⟩).proportion
      then some ((sampleResults.get ⟨14, by simp [sampleResults]⟩).proportion)
      else none :=
  runTestSuite_proportion_field sampleResults sampleGamma sampleRequest
    (buildResponse sampleGamma sampleRequest sampleResults) sampleRun_ok
    14 (by simp [sampleResults]) (by rw [sampleResponse_length]; norm_num)

/-- Witness for C10 at the p-value `1/2` (bin index 5). -/
theorem binIndices_in_range_witness :
    ((5:ℤ) ∈ binIndices [1/2] ∧ 0 ≤ (5:ℤ) ∧ (5:ℤ) ≤ 9) ∧
    binIndices ((1 : ℚ) :: [1/2]) = 9 :: binIndices [1/2] :=
  ⟨⟨by norm_num [binIndices, numBins],
    (binIndices_in_range [1/2]).1 5 (by norm_num [binIndices, numBins])⟩,
   (binIndices_in_range [1/2]).2⟩

end NistService
